import Mathlib

/-!
# geekTimeHomeWork: coordinated shutdown (errgroupHandle.go) and the no-rows query (sqlNoRowHandle.go)

The development embeds the two programs of the repository.

* `errgroupHandle.go`: `main` starts three goroutines with `group.Go` (g1 the server task,
  g2 the drain task, g3 the signal task) and joins them with `group.Wait`.  The goroutines
  are embedded as a labelled transition system: one `Event` per blocking operation that
  completes, `step` gives the effect of an event on the program state (`none` when the
  event is not enabled), `run` folds a schedule.  Every interleaving of the goroutines
  is a schedule.
* `sqlNoRowHandle.go`: `queryRowDemo` is a function of the call of `Scan` of its line 54,
  which is code of database/sql and is taken as an argument.

The library operations the programs call are embedded by their documented behaviour:

* errgroup: the first function passed to `Go` that returns a non-nil error stores it and
  cancels the context; `Wait` blocks until all functions have returned, cancels the
  context and returns the stored error;
* context: the first cancel wins; `Err()` is nil before it and `context.Canceled` after;
* net/http: `ListenAndServe` returns `http.ErrServerClosed` only after `Shutdown`;
* os/signal: `Notify` relays the registered signals only, with a send that never blocks;
* pkg/errors: `Errorf` makes a fresh error, `Wrap` puts the error and the message in a
  `withMessage` and that in a `withStack`; syscall: the names of the signals.
-/

namespace GeekTime

/-! ## Go error values -/

/-- Values of the Go interface type `error` that are not nil.  A Go `error` is embedded as
`Option GoError`, `none` being nil.  The sentinels are compared by identity in Go
(`err == sql.ErrNoRows`), hence they are constructors of their own.  The stack that
pkg/errors records in its errors is not part of the embedding. -/
inductive GoError where
  /-- The sentinel `http.ErrServerClosed`. -/
  | ErrServerClosed
  /-- The sentinel `context.Canceled`. -/
  | Canceled
  /-- The sentinel `context.DeadlineExceeded`. -/
  | DeadlineExceeded
  /-- The sentinel `sql.ErrNoRows`. -/
  | ErrNoRows
  /-- The type `fundamental` of pkg/errors, result of `errors.Errorf`: a message. -/
  | fundamental (msg : String)
  /-- The type `withMessage` of pkg/errors: a cause and a message. -/
  | withMessage (cause : GoError) (msg : String)
  /-- The type `withStack` of pkg/errors: an error and the stack of the caller. -/
  | withStack (err : GoError)
  /-- Any other error produced by a library (bind failure, driver failure, ...). -/
  | other (msg : String)
  deriving DecidableEq, Repr

/-- The method `Error()` of an error value; `withStack` has the one of the error it
holds. -/
def GoError.Error : GoError → String
  | .ErrServerClosed => "http: Server closed"
  | .Canceled => "context canceled"
  | .DeadlineExceeded => "context deadline exceeded"
  | .ErrNoRows => "sql: no rows in result set"
  | .fundamental msg => msg
  | .withMessage cause msg => msg ++ ": " ++ cause.Error
  | .withStack err => err.Error
  | .other msg => msg

/-- One call of the method `Cause()` of pkg/errors, on the error types that have it:
`withStack` gives the error it holds, `withMessage` gives its cause. -/
def GoError.directCause : GoError → Option GoError
  | .withStack err => some err
  | .withMessage cause _ => some cause
  | _ => none

/-- The function `errors.Cause` of pkg/errors: call `Cause()` as long as there is one. -/
def GoError.Cause : GoError → GoError
  | .withStack err => err.Cause
  | .withMessage cause _ => cause.Cause
  | e => e

/-- The function `errors.Wrap(err, message)` of pkg/errors: nil stays nil, a non-nil
error is put in a `withMessage`, which is put in a `withStack`. -/
def Wrap (err : Option GoError) (message : String) : Option GoError :=
  match err with
  | none => none
  | some e => some (.withStack (.withMessage e message))

/-! ## sqlNoRowHandle.go -/

/-- The Go type `int` of a 64-bit platform. -/
abbrev GoInt : Type :=
  { i : Int // -9223372036854775808 ≤ i ∧ i ≤ 9223372036854775807 }

/-- The struct `user` (lines 44-48). -/
structure user where
  id : GoInt
  age : GoInt
  name : String
  deriving DecidableEq, Repr

/-- The zero value of `user`, which `var u user` (line 52) declares. -/
def user.zero : user :=
  { id := ⟨0, by decide⟩, age := ⟨0, by decide⟩, name := "" }

/-- The call `db.QueryRow(sqlStr, 2).Scan(&u.id, &u.name, &u.age)` of line 54, as a
function of the record the three destinations point into: the record after the call and
the error the call returns.  The call is code of database/sql and of the driver; the
program is embedded for every such function. -/
abbrev ScanCall : Type :=
  user → user × Option GoError

/-- The function `queryRowDemo` (lines 50-66), for the call `Scan` of line 54.  The local
`u` is dropped at return: the function returns the error only. -/
def queryRowDemo (Scan : ScanCall) : Option GoError :=
  let u : user := user.zero
  let (_, err) := Scan u
  match err with
  | some e =>
    if e = .ErrNoRows then
      none
    else
      let err1 := Wrap (some e) "query err"
      err1
  | none => none

/-- The call of line 54 when the statement matches a row whose three columns convert to
the destinations: the columns are stored and the call returns nil. -/
def scanRow (id : GoInt) (name : String) (age : GoInt) : ScanCall :=
  fun u => ({ u with id := id, name := name, age := age }, none)

/-- The call of line 54 when the statement matches no row: the destinations are left
alone and the call returns `sql.ErrNoRows`. -/
def scanNoRows : ScanCall :=
  fun u => (u, some .ErrNoRows)

/-- The call of line 54 when it fails with the error `e` (a lost connection, a column of
a found row that does not convert, ...): the call returns `e`. -/
def scanFailure (e : GoError) : ScanCall :=
  fun u => (u, some e)

/-! ## errgroupHandle.go: library values -/

/-- The type `syscall.Signal` (an int; the signals of the system are not negative). -/
structure Signal where
  num : Nat
  deriving DecidableEq, Repr

/-- The constant `syscall.SIGINT`. -/
def SIGINT : Signal := ⟨2⟩

/-- The constant `syscall.SIGTERM`. -/
def SIGTERM : Signal := ⟨15⟩

/-- The method `String()` of `syscall.Signal`, which `%v` prints: the name in the table of
the linux port of syscall (entries 1 to 31), and "signal n" outside of it. -/
def Signal.String (s : Signal) : String :=
  match s.num with
  | 1 => "hangup"
  | 2 => "interrupt"
  | 3 => "quit"
  | 4 => "illegal instruction"
  | 5 => "trace/breakpoint trap"
  | 6 => "aborted"
  | 7 => "bus error"
  | 8 => "floating point exception"
  | 9 => "killed"
  | 10 => "user defined signal 1"
  | 11 => "segmentation fault"
  | 12 => "user defined signal 2"
  | 13 => "broken pipe"
  | 14 => "alarm clock"
  | 15 => "terminated"
  | 16 => "stack fault"
  | 17 => "child exited"
  | 18 => "continued"
  | 19 => "stopped (signal)"
  | 20 => "stopped"
  | 21 => "stopped (tty input)"
  | 22 => "stopped (tty output)"
  | 23 => "urgent I/O condition"
  | 24 => "CPU time limit exceeded"
  | 25 => "file size limit exceeded"
  | 26 => "virtual timer expired"
  | 27 => "profiling timer expired"
  | 28 => "window changed"
  | 29 => "I/O possible"
  | 30 => "power failure"
  | 31 => "bad system call"
  | n => "signal " ++ toString n

/-- The call `errors.Errorf("get os exit: %v", sig)` of line 75. -/
def Errorf_get_os_exit (sig : Signal) : GoError :=
  .fundamental ("get os exit: " ++ sig.String)

/-- The signals registered by `signal.Notify(quit, syscall.SIGINT, syscall.SIGTERM)`. -/
def notified (sig : Signal) : Bool :=
  sig == SIGINT || sig == SIGTERM

/-- The constant `time.Second`, in nanoseconds. -/
def Second : Nat := 1000000000

/-- How a context value was built. -/
inductive ContextExpr where
  /-- The value `context.Background()`. -/
  | Background
  /-- The shared `ctx` returned by `errgroup.WithContext(context.Background())` (line 18). -/
  | groupCtx
  /-- The value `context.WithTimeout(parent, d)`. -/
  | WithTimeout (parent : ContextExpr) (d : Nat)
  deriving DecidableEq, Repr

/-- Whether a context is the shared context or a descendant of it (and so is cancelled
with it). -/
def ContextExpr.derivesFromGroup : ContextExpr → Bool
  | .Background => false
  | .groupCtx => true
  | .WithTimeout parent _ => parent.derivesFromGroup

/-- The deadline budget of a context, if it has one of its own. -/
def ContextExpr.timeout : ContextExpr → Option Nat
  | .WithTimeout _ d => some d
  | _ => none

/-- The shared cancellation context `ctx`: whether `Done()` is closed, and the cause the
first cancel recorded (the versions of errgroup built on `context.WithCancelCause` pass
the error to the cancel function; `main` never reads the cause). -/
structure Context where
  done : Bool
  cause : Option GoError
  deriving DecidableEq, Repr

/-- The cancel function of the context: the first call closes `Done()` and records the
cause (`context.Canceled` when the cause is nil); later calls do nothing. -/
def Context.cancel (c : Context) (cause : Option GoError) : Context :=
  if c.done then c else { done := true, cause := some (cause.getD .Canceled) }

/-- The method `ctx.Err()`: nil while `Done()` is open, `context.Canceled` once the
context was cancelled (the context has no deadline). -/
def Context.Err (c : Context) : Option GoError :=
  if c.done then some .Canceled else none

/-- The `errgroup.Group` together with its context. -/
structure Group where
  ctx : Context
  err : Option GoError
  errOnce : Bool
  wg : Nat
  deriving DecidableEq, Repr

/-- The call `errgroup.WithContext(context.Background())` followed by three `group.Go`. -/
def Group.WithContext3 : Group :=
  { ctx := { done := false, cause := none }, err := none, errOnce := false, wg := 3 }

/-- The wrapper goroutine of `group.Go(f)` after `f` returned `r`: a non-nil `r` runs
`errOnce.Do` (store the error, cancel the context), then `wg.Done()`. -/
def Group.goReturn (g : Group) (r : Option GoError) : Group :=
  let g1 : Group :=
    match r with
    | none => g
    | some e =>
      if g.errOnce then g
      else { g with err := some e, errOnce := true, ctx := g.ctx.cancel (some e) }
  { g1 with wg := g1.wg - 1 }

/-- The method `group.Wait()`: blocks until the counter is zero, then cancels the context
and returns the stored error. -/
def Group.Wait (g : Group) : Option (Group × Option GoError) :=
  match g.wg with
  | 0 => some ({ g with ctx := g.ctx.cancel g.err }, g.err)
  | _ + 1 => none

/-! ## errgroupHandle.go: the three goroutines of `main` -/

/-- The three functions passed to `group.Go`: g1 (line 40), g2 (line 46), g3 (line 64). -/
inductive Task where
  | server
  | drain
  | signal
  deriving DecidableEq, Repr

/-- Control state of g1: inside `server.ListenAndServe()`, or returned. -/
inductive ServerState where
  | running
  | returned (r : Option GoError)
  deriving DecidableEq, Repr

/-- Control state of g2: blocked in the `select`, inside `server.Shutdown(timeoutCtx)`,
or returned. -/
inductive DrainState where
  | waiting
  | shuttingDown
  | returned (r : Option GoError)
  deriving DecidableEq, Repr

/-- Control state of g3: blocked in the `select` (after `signal.Notify`), or returned. -/
inductive SignalState where
  | waiting
  | returned (r : Option GoError)
  deriving DecidableEq, Repr

/-- State of the program after the three `group.Go` calls.  The field `log` is a
history: `step` appends to it and never reads it. -/
structure State where
  /-- The errgroup and the shared context. -/
  group : Group
  server : ServerState
  drain : DrainState
  signal : SignalState
  /-- The unbuffered channel `serverOut` (line 31): the number of `/shutdown` handlers
  blocked in the send `serverOut <- struct{}{}` of line 33. -/
  serverOut : Nat
  /-- The channel `quit`, of capacity 1 (line 65). -/
  quit : Option Signal
  /-- The context arguments of the calls of `server.Shutdown`, in order. -/
  shutdownCalls : List ContextExpr
  /-- The tasks that returned with their outcomes, in order of termination. -/
  log : List (Task × Option GoError)
  /-- The value of `err := group.Wait()` (line 80) once `Wait` has returned. -/
  waitResult : Option (Option GoError)
  deriving DecidableEq, Repr

/-- The state at line 79: the three goroutines are started and none has moved. -/
def State.init : State :=
  { group := Group.WithContext3
    server := .running
    drain := .waiting
    signal := .waiting
    serverOut := 0
    quit := none
    shutdownCalls := []
    log := []
    waitResult := none }

/-- The outcome of a task, once it has returned. -/
def State.outcome (s : State) : Task → Option (Option GoError)
  | .server => match s.server with
    | .returned r => some r
    | .running => none
  | .drain => match s.drain with
    | .returned r => some r
    | _ => none
  | .signal => match s.signal with
    | .returned r => some r
    | .waiting => none

/-- Body of g1 (line 41): `return server.ListenAndServe()`. -/
def serverTask (listenAndServe : Option GoError) : Option GoError :=
  listenAndServe

/-- The context of line 54: `context.WithTimeout(context.Background(), 3*time.Second)`. -/
def timeoutCtx : ContextExpr :=
  .WithTimeout .Background (3 * Second)

/-- Tail of g2 (line 57): `return server.Shutdown(timeoutCtx)`. -/
def drainTask (shutdown : Option GoError) : Option GoError :=
  shutdown

/-- Exit of g3 through `case <-ctx.Done()` (line 72): `return ctx.Err()`. -/
def signalTaskCtx (ctx : Context) : Option GoError :=
  ctx.Err

/-- Exit of g3 through `case sig := <-quit` (line 75). -/
def signalTaskQuit (sig : Signal) : Option GoError :=
  some (Errorf_get_os_exit sig)

/-- The moves of the program and of its environment. -/
inductive Event where
  /-- A request to `/shutdown` reaches `serverOut <- struct{}{}` (line 33) and blocks. -/
  | shutdownRequest
  /-- The call `server.ListenAndServe()` returns `r`, and g1 returns (line 41). -/
  | serveReturn (r : Option GoError)
  /-- The `select` of g2 takes `case <-serverOut` (line 48), and g2 calls `Shutdown`. -/
  | drainRecv
  /-- The `select` of g2 takes `case <-ctx.Done()` (line 50), and g2 calls `Shutdown`. -/
  | drainCtxDone
  /-- The call `server.Shutdown(timeoutCtx)` returns `r`, and g2 returns (line 57). -/
  | shutdownReturn (r : Option GoError)
  /-- The operating system delivers `sig`; os/signal sends it on `quit` without blocking. -/
  | osSignal (sig : Signal)
  /-- The `select` of g3 takes `case <-ctx.Done()` (line 70), and g3 returns. -/
  | signalCtxDone
  /-- The `select` of g3 takes `case sig := <-quit` (line 73), and g3 returns. -/
  | signalRecv
  /-- The call `group.Wait()` of line 80 returns. -/
  | wait
  deriving DecidableEq, Repr

/-- The effect of an event that is enabled, `none` when it is not.  A return of a task and
the bookkeeping of its `group.Go` wrapper are one move. -/
def stepLive (s : State) : Event → Option State
  | .shutdownRequest =>
    some { s with serverOut := s.serverOut + 1 }
  | .serveReturn r =>
    -- `http.ErrServerClosed` is returned only after `Shutdown` was called
    match s.server, r, s.shutdownCalls with
    | .running, some .ErrServerClosed, [] => none
    | .running, _, _ =>
      some { s with
        server := .returned (serverTask r)
        group := s.group.goReturn (serverTask r)
        log := s.log ++ [(.server, serverTask r)] }
    | .returned _, _, _ => none
  | .drainRecv =>
    match s.drain, s.serverOut with
    | .waiting, n + 1 =>
      some { s with
        drain := .shuttingDown
        serverOut := n
        shutdownCalls := s.shutdownCalls ++ [timeoutCtx] }
    | _, _ => none
  | .drainCtxDone =>
    match s.drain, s.group.ctx.done with
    | .waiting, true =>
      some { s with
        drain := .shuttingDown
        shutdownCalls := s.shutdownCalls ++ [timeoutCtx] }
    | _, _ => none
  | .shutdownReturn r =>
    match s.drain with
    | .shuttingDown =>
      some { s with
        drain := .returned (drainTask r)
        group := s.group.goReturn (drainTask r)
        log := s.log ++ [(.drain, drainTask r)] }
    | _ => none
  | .osSignal sig =>
    -- only registered signals are relayed; a full channel drops the signal
    match notified sig, s.quit with
    | true, none => some { s with quit := some sig }
    | true, some _ => some s
    | false, _ => none
  | .signalCtxDone =>
    match s.signal, s.group.ctx.done with
    | .waiting, true =>
      some { s with
        signal := .returned (signalTaskCtx s.group.ctx)
        group := s.group.goReturn (signalTaskCtx s.group.ctx)
        log := s.log ++ [(.signal, signalTaskCtx s.group.ctx)] }
    | _, _ => none
  | .signalRecv =>
    match s.signal, s.quit with
    | .waiting, some sig =>
      some { s with
        signal := .returned (signalTaskQuit sig)
        quit := none
        group := s.group.goReturn (signalTaskQuit sig)
        log := s.log ++ [(.signal, signalTaskQuit sig)] }
    | _, _ => none
  | .wait =>
    match s.group.Wait with
    | some (g, err) => some { s with group := g, waitResult := some err }
    | none => none

/-- One move of the program: nothing moves once `group.Wait()` has returned and `main`
has run to its end. -/
def step (s : State) (e : Event) : Option State :=
  match s.waitResult with
  | some _ => none
  | none => stepLive s e

/-- The state a schedule leads to from `s`, `none` when some event of it is not enabled. -/
def run : State → List Event → Option State
  | s, [] => some s
  | s, e :: es =>
    match step s e with
    | some s1 => run s1 es
    | none => none

/-- The first non-nil error of a list of outcomes. -/
def firstNonNil : List (Option GoError) → Option GoError
  | [] => none
  | some e :: _ => some e
  | none :: rest => firstNonNil rest

/-- A schedule of the stop-request path: a request to `/shutdown`, g2 receives it and
shuts the server down, `ListenAndServe` returns the closed indicator, `Shutdown` returns
nil, g3 sees the context done, `Wait` returns. -/
def stopRequestRun : List Event :=
  [.shutdownRequest, .drainRecv, .serveReturn (some .ErrServerClosed),
   .shutdownReturn none, .signalCtxDone, .wait]

/-- A schedule of the signal path: SIGINT arrives, g3 returns its error, g2 sees the
context done and shuts the server down, `ListenAndServe` and `Shutdown` return, `Wait`
returns. -/
def signalRun : List Event :=
  [.osSignal SIGINT, .signalRecv, .drainCtxDone, .serveReturn (some .ErrServerClosed),
   .shutdownReturn none, .wait]

/-- The start of the stop-request path up to the return of g2 with nil, g1 still being
inside `ListenAndServe`. -/
def drainFirstRun : List Event :=
  [.shutdownRequest, .drainRecv, .shutdownReturn none]

/-- The start of the stop-request path up to the return of g1 with the closed indicator. -/
def serverClosedRun : List Event :=
  [.shutdownRequest, .drainRecv, .serveReturn (some .ErrServerClosed)]

/-- The server fails to bind its port, g1 returns that error, and g3 sees the context
done. -/
def bindFailureRun : List Event :=
  [.serveReturn (some (.other "listen tcp :8889: bind: address already in use")),
   .signalCtxDone]

/-- The delivery of SIGTERM, before any task has moved. -/
def sigtermRun : List Event :=
  [.osSignal SIGTERM]

/-- The delivery of SIGTERM, then g3 receives it from `quit` and returns. -/
def sigtermRecvRun : List Event :=
  [.osSignal SIGTERM, .signalRecv]

/-- The state a schedule leads to from the initial state (the initial state when the
schedule is not enabled). -/
def State.after (evs : List Event) : State :=
  (run State.init evs).getD State.init

/-! ## Observations of a schedule -/

/-- The number of times the `select` of g2 fired in a schedule. -/
def drainWakes (evs : List Event) : Nat :=
  (evs.filter (fun e => e = .drainRecv ∨ e = .drainCtxDone)).length

/-- The values `server.Shutdown` returned in a schedule, in order. -/
def shutdownReturns (evs : List Event) : List (Option GoError) :=
  evs.filterMap (fun e => match e with
    | .shutdownReturn r => some r
    | _ => none)

/-- The task an event makes return, if it does. -/
def Event.returnOf : Event → Option Task
  | .serveReturn _ => some .server
  | .shutdownReturn _ => some .drain
  | .signalCtxDone => some .signal
  | .signalRecv => some .signal
  | _ => none

/-- The tasks that return in a schedule, in the order they return. -/
def returnOrder (evs : List Event) : List Task :=
  evs.filterMap Event.returnOf

/-- The event is the delivery of a signal. -/
def Event.isSignal : Event → Bool
  | .osSignal _ => true
  | _ => false

/-- No signal is delivered in the schedule. -/
def noSignal (evs : List Event) : Bool :=
  evs.all (fun e => !e.isSignal)

/-- The event is a request to `/shutdown`, or the server stops by itself: `ListenAndServe`
returns something else than the closed indicator. -/
def Event.isStopTrigger : Event → Bool
  | .shutdownRequest => true
  | .serveReturn r => r != some .ErrServerClosed
  | _ => false

/-- No request to `/shutdown` is made in the schedule, and the server does not stop by
itself. -/
def noStopRequest (evs : List Event) : Bool :=
  evs.all (fun e => !e.isStopTrigger)

/-! ## Invariants of the schedules -/

/-- Number of tasks that have not returned. -/
def State.pending (s : State) : Nat :=
  (match s.server with
    | .running => 1
    | .returned _ => 0) +
  (match s.drain with
    | .returned _ => 0
    | _ => 1) +
  (match s.signal with
    | .waiting => 1
    | .returned _ => 0)

/-- What holds of the errgroup, of the history and of the outcomes after every schedule. -/
structure GroupInv (evs : List Event) (s : State) : Prop where
  err_first : s.group.err = firstNonNil (s.log.map Prod.snd)
  once : s.group.errOnce = s.group.err.isSome
  wg_pending : s.group.wg = s.pending
  log_pending : s.log.length + s.pending = 3
  log_mem : ∀ t r, (t, r) ∈ s.log ↔ s.outcome t = some r
  log_order : s.log.map Prod.fst = returnOrder evs
  done_iff : s.group.ctx.done = true ↔ (s.waitResult ≠ none ∨ s.group.err ≠ none)
  wait_val : ∀ r, s.waitResult = some r → r = s.group.err ∧ s.pending = 0

/-- The value `ListenAndServe` returned in the schedule is the recorded state of g1. -/
def ServerInv (evs : List Event) (s : State) : Prop :=
  ∀ r, Event.serveReturn r ∈ evs ↔ s.server = .returned r

/-- The `select` of g2, the calls of `Shutdown` and its returns, by control state of g2. -/
def DrainInv (evs : List Event) (s : State) : Prop :=
  match s.drain with
  | .waiting => drainWakes evs = 0 ∧ s.shutdownCalls = [] ∧ shutdownReturns evs = []
  | .shuttingDown =>
    drainWakes evs = 1 ∧ s.shutdownCalls = [timeoutCtx] ∧ shutdownReturns evs = []
  | .returned r =>
    drainWakes evs = 1 ∧ s.shutdownCalls = [timeoutCtx] ∧ shutdownReturns evs = [r]

/-- The channel `quit` holds registered signals only, and the state of g3 tells which
case of its `select` fired and what it returned. -/
def SignalInv (evs : List Event) (s : State) : Prop :=
  (∀ sig, s.quit = some sig → sig = SIGINT ∨ sig = SIGTERM) ∧
  match s.signal with
  | .waiting => Event.signalCtxDone ∉ evs ∧ Event.signalRecv ∉ evs
  | .returned r =>
    (Event.signalCtxDone ∈ evs ∧ Event.signalRecv ∉ evs ∧ r = some .Canceled) ∨
    (Event.signalRecv ∈ evs ∧ Event.signalCtxDone ∉ evs ∧
      ∃ sig, (sig = SIGINT ∨ sig = SIGTERM) ∧ r = some (Errorf_get_os_exit sig))

/-- Without a delivered signal `quit` stays empty and g3 never takes its signal case. -/
def NoSignalInv (evs : List Event) (s : State) : Prop :=
  noSignal evs = true → s.quit = none ∧ Event.signalRecv ∉ evs

/-- Without a stop request and without a failure of the server by itself, nothing moves
before g3 has returned, and g3 does not take its context case. -/
def QuietInv (evs : List Event) (s : State) : Prop :=
  noStopRequest evs = true → s.serverOut = 0 ∧ Event.signalCtxDone ∉ evs ∧
    (s.signal = .waiting →
      s.drain = .waiting ∧ s.server = .running ∧ s.group.ctx.done = false)

/-! ## The step function, event by event -/

theorem step_live {s s1 : State} {e : Event} (h : step s e = some s1) :
    s.waitResult = none ∧ stepLive s e = some s1 := by
  unfold step at h
  split at h
  · exact absurd h (by simp)
  · next hw => exact ⟨hw, h⟩

theorem step_shutdownRequest {s s1 : State} (h : step s .shutdownRequest = some s1) :
    s.waitResult = none ∧ s1 = { s with serverOut := s.serverOut + 1 } := by
  obtain ⟨hw, h⟩ := step_live h
  simp only [stepLive, Option.some.injEq] at h
  exact ⟨hw, h.symm⟩

theorem step_serveReturn {s s1 : State} {r : Option GoError}
    (h : step s (.serveReturn r) = some s1) :
    s.waitResult = none ∧ s.server = .running ∧
      (r = some .ErrServerClosed → s.shutdownCalls ≠ []) ∧
      s1 = { s with
        server := .returned r
        group := s.group.goReturn r
        log := s.log ++ [(.server, r)] } := by
  obtain ⟨hw, h⟩ := step_live h
  simp only [stepLive, serverTask] at h
  split at h
  · exact absurd h (by simp)
  · next hs _ hne =>
    simp only [Option.some.injEq] at h
    refine ⟨hw, hs, ?_, h.symm⟩
    intro hr hc
    exact hne hr hc
  · exact absurd h (by simp)

theorem step_drainRecv {s s1 : State} (h : step s .drainRecv = some s1) :
    s.waitResult = none ∧ s.drain = .waiting ∧ ∃ n, s.serverOut = n + 1 ∧
      s1 = { s with
        drain := .shuttingDown
        serverOut := n
        shutdownCalls := s.shutdownCalls ++ [timeoutCtx] } := by
  obtain ⟨hw, h⟩ := step_live h
  simp only [stepLive] at h
  split at h
  · next n hd hn =>
    simp only [Option.some.injEq] at h
    exact ⟨hw, hd, n, hn, h.symm⟩
  · exact absurd h (by simp)

theorem step_drainCtxDone {s s1 : State} (h : step s .drainCtxDone = some s1) :
    s.waitResult = none ∧ s.drain = .waiting ∧ s.group.ctx.done = true ∧
      s1 = { s with
        drain := .shuttingDown
        shutdownCalls := s.shutdownCalls ++ [timeoutCtx] } := by
  obtain ⟨hw, h⟩ := step_live h
  simp only [stepLive] at h
  split at h
  · next hd hc =>
    simp only [Option.some.injEq] at h
    exact ⟨hw, hd, hc, h.symm⟩
  · exact absurd h (by simp)

theorem step_shutdownReturn {s s1 : State} {r : Option GoError}
    (h : step s (.shutdownReturn r) = some s1) :
    s.waitResult = none ∧ s.drain = .shuttingDown ∧
      s1 = { s with
        drain := .returned r
        group := s.group.goReturn r
        log := s.log ++ [(.drain, r)] } := by
  obtain ⟨hw, h⟩ := step_live h
  simp only [stepLive, drainTask] at h
  split at h
  · next hd =>
    simp only [Option.some.injEq] at h
    exact ⟨hw, hd, h.symm⟩
  · exact absurd h (by simp)

theorem step_osSignal {s s1 : State} {sig : Signal} (h : step s (.osSignal sig) = some s1) :
    s.waitResult = none ∧ (sig = SIGINT ∨ sig = SIGTERM) ∧
      ((s.quit = none ∧ s1 = { s with quit := some sig }) ∨ (s.quit ≠ none ∧ s1 = s)) := by
  obtain ⟨hw, h⟩ := step_live h
  simp only [stepLive] at h
  have hn : notified sig = true → sig = SIGINT ∨ sig = SIGTERM := by
    intro hn
    simpa [notified] using hn
  split at h
  · next hn1 hq =>
    simp only [Option.some.injEq] at h
    exact ⟨hw, hn hn1, Or.inl ⟨hq, h.symm⟩⟩
  · next hn1 hq =>
    simp only [Option.some.injEq] at h
    exact ⟨hw, hn hn1, Or.inr ⟨by simp [hq], h.symm⟩⟩
  · exact absurd h (by simp)

theorem step_signalCtxDone {s s1 : State} (h : step s .signalCtxDone = some s1) :
    s.waitResult = none ∧ s.signal = .waiting ∧ s.group.ctx.done = true ∧
      s1 = { s with
        signal := .returned (some .Canceled)
        group := s.group.goReturn (some .Canceled)
        log := s.log ++ [(.signal, some .Canceled)] } := by
  obtain ⟨hw, h⟩ := step_live h
  simp only [stepLive, signalTaskCtx] at h
  split at h
  · next hd hc =>
    simp only [Option.some.injEq, Context.Err, hc, if_true] at h
    exact ⟨hw, hd, hc, h.symm⟩
  · exact absurd h (by simp)

theorem step_signalRecv {s s1 : State} (h : step s .signalRecv = some s1) :
    s.waitResult = none ∧ s.signal = .waiting ∧ ∃ sig, s.quit = some sig ∧
      s1 = { s with
        signal := .returned (some (Errorf_get_os_exit sig))
        quit := none
        group := s.group.goReturn (some (Errorf_get_os_exit sig))
        log := s.log ++ [(.signal, some (Errorf_get_os_exit sig))] } := by
  obtain ⟨hw, h⟩ := step_live h
  simp only [stepLive, signalTaskQuit] at h
  split at h
  · next sig hd hq =>
    simp only [Option.some.injEq] at h
    exact ⟨hw, hd, sig, hq, h.symm⟩
  · exact absurd h (by simp)

theorem step_wait {s s1 : State} (h : step s .wait = some s1) :
    s.waitResult = none ∧ s.group.wg = 0 ∧
      s1 = { s with
        group := { s.group with ctx := s.group.ctx.cancel s.group.err }
        waitResult := some s.group.err } := by
  obtain ⟨hw, h⟩ := step_live h
  simp only [stepLive, Group.Wait] at h
  split at h
  · next g err hg =>
    split at hg
    · next hz =>
      simp only [Option.some.injEq, Prod.mk.injEq] at hg h
      obtain ⟨rfl, rfl⟩ := hg
      exact ⟨hw, hz, h.symm⟩
    · exact absurd hg (by simp)
  · exact absurd h (by simp)

/-! ## Schedules -/

theorem run_append (s : State) (evs : List Event) (e : Event) :
    run s (evs ++ [e]) = (run s evs).bind (fun s1 => step s1 e) := by
  induction evs generalizing s with
  | nil =>
    simp only [List.nil_append, run, Option.some_bind]
    cases step s e <;> rfl
  | cons a evs ih =>
    simp only [List.cons_append, run]
    cases step s a with
    | none => rfl
    | some s1 => exact ih s1

/-- Induction over the schedules enabled in the initial state, one event at a time. -/
theorem run_induction {P : List Event → State → Prop} (h0 : P [] State.init)
    (hstep : ∀ evs s e s1, run State.init evs = some s → P evs s → step s e = some s1 →
      P (evs ++ [e]) s1) :
    ∀ evs s, run State.init evs = some s → P evs s := by
  intro evs
  induction evs using List.reverseRecOn with
  | nil =>
    intro s h
    simp only [run, Option.some.injEq] at h
    subst h
    exact h0
  | append_singleton evs e ih =>
    intro s h
    rw [run_append] at h
    cases hr : run State.init evs with
    | none => simp [hr] at h
    | some s0 =>
      simp only [hr, Option.some_bind] at h
      exact hstep evs s0 e s (hr) (ih s0 hr) h

/-! ## The errgroup bookkeeping -/

theorem firstNonNil_append (l : List (Option GoError)) (r : Option GoError) :
    firstNonNil (l ++ [r]) = match firstNonNil l with
      | some e => some e
      | none => r := by
  induction l with
  | nil => cases r <;> rfl
  | cons a l ih =>
    cases a with
    | none => simpa [firstNonNil] using ih
    | some e => simp [firstNonNil]

theorem firstNonNil_eq_none (l : List (Option GoError)) :
    firstNonNil l = none ↔ ∀ r ∈ l, r = none := by
  induction l with
  | nil => simp [firstNonNil]
  | cons a l ih =>
    cases a with
    | none => simp [firstNonNil, ih]
    | some e => simp [firstNonNil]

theorem goReturn_wg (g : Group) (r : Option GoError) : (g.goReturn r).wg = g.wg - 1 := by
  unfold Group.goReturn
  cases r with
  | none => rfl
  | some e =>
    by_cases h : g.errOnce = true
    · simp [h]
    · simp [h]

theorem goReturn_err (g : Group) (r : Option GoError) (l : List (Option GoError))
    (h1 : g.err = firstNonNil l) (h2 : g.errOnce = g.err.isSome) :
    (g.goReturn r).err = firstNonNil (l ++ [r]) ∧
      (g.goReturn r).errOnce = (g.goReturn r).err.isSome := by
  rw [firstNonNil_append, ← h1]
  unfold Group.goReturn
  cases r with
  | none =>
    cases hg : g.err with
    | none => simp [hg, h2]
    | some e => simp [hg, h2]
  | some e =>
    cases hg : g.err with
    | none => simp [hg, h2]
    | some e0 => simp [hg, h2]

theorem goReturn_done (g : Group) (r : Option GoError) (h2 : g.errOnce = g.err.isSome)
    (h3 : g.ctx.done = true ↔ g.err ≠ none) :
    (g.goReturn r).ctx.done = true ↔ (g.goReturn r).err ≠ none := by
  unfold Group.goReturn
  cases r with
  | none => simpa using h3
  | some e =>
    cases hg : g.err with
    | none =>
      have hd : g.ctx.done = false := by
        cases hc : g.ctx.done with
        | false => rfl
        | true => exact absurd hg (h3.mp hc)
      simp [hg, h2, Context.cancel, hd]
    | some e0 =>
      have hd : g.ctx.done = true := h3.mpr (by simp [hg])
      simp [hg, h2, hd]

theorem groupInv_init : GroupInv [] State.init := by
  refine ⟨rfl, rfl, rfl, rfl, ?_, rfl, ?_, ?_⟩
  · intro t r
    cases t <;> simp [State.init, State.outcome]
  · simp [State.init, Group.WithContext3]
  · intro r h
    simp [State.init] at h

/-- A task that is still running returns `r`: the bookkeeping that every return shares. -/
theorem groupInv_return {evs : List Event} {s s1 : State} {e : Event} {t : Task}
    {r : Option GoError} (inv : GroupInv evs s) (hw : s.waitResult = none)
    (he : e.returnOf = some t) (ht : s.outcome t = none)
    (hg : s1.group = s.group.goReturn r) (hl : s1.log = s.log ++ [(t, r)])
    (hw1 : s1.waitResult = s.waitResult)
    (ho : ∀ t1, s1.outcome t1 = if t1 = t then some r else s.outcome t1)
    (hp : s1.pending + 1 = s.pending) : GroupInv (evs ++ [e]) s1 := by
  have herr := goReturn_err s.group r _ inv.err_first inv.once
  have hdone := goReturn_done s.group r inv.once (by simpa [hw] using inv.done_iff)
  refine ⟨?_, ?_, ?_, ?_, ?_, ?_, ?_, ?_⟩
  · rw [hg, hl, herr.1]; simp
  · rw [hg]; exact herr.2
  · rw [hg, goReturn_wg, inv.wg_pending]; omega
  · have := inv.log_pending
    rw [hl]; simp only [List.length_append, List.length_singleton]; omega
  · intro t1 r1
    rw [hl, ho, List.mem_append, inv.log_mem]
    by_cases h : t1 = t
    · subst h
      simp [ht, eq_comm]
    · simp [h]
  · rw [hl]
    simp [returnOrder, List.filterMap_append, he]
    exact inv.log_order
  · rw [hw1, hg]
    simpa [hw] using hdone
  · intro r1 h
    rw [hw1, hw] at h
    exact absurd h (by simp)

/-- An event that makes no task return and leaves the group alone. -/
theorem groupInv_frame {evs : List Event} {s s1 : State} {e : Event}
    (inv : GroupInv evs s) (he : e.returnOf = none)
    (hg : s1.group = s.group) (hl : s1.log = s.log) (hw1 : s1.waitResult = s.waitResult)
    (ho : ∀ t r, s1.outcome t = some r ↔ s.outcome t = some r)
    (hp : s1.pending = s.pending) : GroupInv (evs ++ [e]) s1 := by
  refine ⟨?_, ?_, ?_, ?_, ?_, ?_, ?_, ?_⟩
  · rw [hg, hl]; exact inv.err_first
  · rw [hg]; exact inv.once
  · rw [hg, hp]; exact inv.wg_pending
  · rw [hl, hp]; exact inv.log_pending
  · intro t r
    rw [hl, ho t r]
    exact inv.log_mem t r
  · rw [hl]
    simp [returnOrder, List.filterMap_append, he]
    exact inv.log_order
  · rw [hg, hw1]; exact inv.done_iff
  · intro r h
    rw [hw1] at h
    rw [hg, hp]
    exact inv.wait_val r h

theorem groupInv_step {evs : List Event} {s s1 : State} {e : Event}
    (inv : GroupInv evs s) (h : step s e = some s1) : GroupInv (evs ++ [e]) s1 := by
  cases e with
  | shutdownRequest =>
    obtain ⟨_, rfl⟩ := step_shutdownRequest h
    exact groupInv_frame inv rfl rfl rfl rfl (fun t r => by cases t <;> rfl) rfl
  | serveReturn r =>
    obtain ⟨hw, hs, _, rfl⟩ := step_serveReturn h
    refine groupInv_return (t := .server) (r := r) inv hw rfl ?_ rfl rfl rfl ?_ ?_
    · simp [State.outcome, hs]
    · intro t1
      cases t1 <;> simp [State.outcome]
    · simp [State.pending, hs]; omega
  | drainRecv =>
    obtain ⟨_, hd, n, _, rfl⟩ := step_drainRecv h
    refine groupInv_frame inv rfl rfl rfl rfl (fun t r => ?_) ?_
    · cases t <;> simp [State.outcome, hd]
    · simp [State.pending, hd]
  | drainCtxDone =>
    obtain ⟨_, hd, _, rfl⟩ := step_drainCtxDone h
    refine groupInv_frame inv rfl rfl rfl rfl (fun t r => ?_) ?_
    · cases t <;> simp [State.outcome, hd]
    · simp [State.pending, hd]
  | shutdownReturn r =>
    obtain ⟨hw, hd, rfl⟩ := step_shutdownReturn h
    refine groupInv_return (t := .drain) (r := r) inv hw rfl ?_ rfl rfl rfl ?_ ?_
    · simp [State.outcome, hd]
    · intro t1
      cases t1 <;> simp [State.outcome]
    · simp [State.pending, hd]; omega
  | osSignal sig =>
    obtain ⟨_, _, hq⟩ := step_osSignal h
    rcases hq with ⟨_, rfl⟩ | ⟨_, rfl⟩
    · exact groupInv_frame inv rfl rfl rfl rfl (fun t r => by cases t <;> rfl) rfl
    · exact groupInv_frame inv rfl rfl rfl rfl (fun t r => Iff.rfl) rfl
  | signalCtxDone =>
    obtain ⟨hw, hd, _, rfl⟩ := step_signalCtxDone h
    refine groupInv_return (t := .signal) (r := some .Canceled) inv hw rfl ?_ rfl rfl rfl ?_ ?_
    · simp [State.outcome, hd]
    · intro t1
      cases t1 <;> simp [State.outcome]
    · simp [State.pending, hd]
  | signalRecv =>
    obtain ⟨hw, hd, sig, _, rfl⟩ := step_signalRecv h
    refine groupInv_return (t := .signal) (r := some (Errorf_get_os_exit sig)) inv hw rfl ?_
      rfl rfl rfl ?_ ?_
    · simp [State.outcome, hd]
    · intro t1
      cases t1 <;> simp [State.outcome]
    · simp [State.pending, hd]
  | wait =>
    obtain ⟨hw, hz, rfl⟩ := step_wait h
    refine ⟨inv.err_first, inv.once, inv.wg_pending, inv.log_pending, inv.log_mem, ?_, ?_, ?_⟩
    · simp [returnOrder, List.filterMap_append, Event.returnOf]
      exact inv.log_order
    · have hd := inv.done_iff
      simp only [hw, ne_eq, not_true_eq_false, false_or] at hd
      simp only [ne_eq, reduceCtorEq, not_false_eq_true, true_or, iff_true]
      unfold Context.cancel
      cases hc : s.group.ctx.done <;> simp [hc]
    · intro r hr
      simp only [Option.some.injEq] at hr
      refine ⟨hr.symm, ?_⟩
      have := inv.wg_pending
      show s.pending = 0
      omega

/-- The invariant holds after every schedule enabled in the initial state. -/
theorem groupInv_run (evs : List Event) (s : State) (h : run State.init evs = some s) :
    GroupInv evs s :=
  run_induction (P := GroupInv) groupInv_init
    (fun _ _ _ _ _ inv hs => groupInv_step inv hs) evs s h

/-! ## The server task and the schedule -/

theorem serverInv_step {evs : List Event} {s s1 : State} {e : Event}
    (inv : ServerInv evs s) (h : step s e = some s1) : ServerInv (evs ++ [e]) s1 := by
  intro r0
  have i0 := inv r0
  cases e with
  | shutdownRequest =>
    obtain ⟨_, rfl⟩ := step_shutdownRequest h
    simpa [List.mem_append] using i0
  | serveReturn r =>
    obtain ⟨_, hs, _, rfl⟩ := step_serveReturn h
    have hn : Event.serveReturn r0 ∉ evs := by
      rw [i0, hs]; simp
    simp [List.mem_append, hn, eq_comm]
  | drainRecv =>
    obtain ⟨_, _, n, _, rfl⟩ := step_drainRecv h
    simpa [List.mem_append] using i0
  | drainCtxDone =>
    obtain ⟨_, _, _, rfl⟩ := step_drainCtxDone h
    simpa [List.mem_append] using i0
  | shutdownReturn r =>
    obtain ⟨_, _, rfl⟩ := step_shutdownReturn h
    simpa [List.mem_append] using i0
  | osSignal sig =>
    obtain ⟨_, _, hq⟩ := step_osSignal h
    rcases hq with ⟨_, rfl⟩ | ⟨_, rfl⟩ <;> simpa [List.mem_append] using i0
  | signalCtxDone =>
    obtain ⟨_, _, _, rfl⟩ := step_signalCtxDone h
    simpa [List.mem_append] using i0
  | signalRecv =>
    obtain ⟨_, _, sig, _, rfl⟩ := step_signalRecv h
    simpa [List.mem_append] using i0
  | wait =>
    obtain ⟨_, _, rfl⟩ := step_wait h
    simpa [List.mem_append] using i0

theorem serverInv_run (evs : List Event) (s : State) (h : run State.init evs = some s) :
    ServerInv evs s :=
  run_induction (P := ServerInv) (by intro r; simp [State.init])
    (fun _ _ _ _ _ inv hs => serverInv_step inv hs) evs s h

/-! ## The drain task and the schedule -/

theorem drainWakes_append (evs : List Event) (e : Event) :
    drainWakes (evs ++ [e]) =
      drainWakes evs + (if e = .drainRecv ∨ e = .drainCtxDone then 1 else 0) := by
  unfold drainWakes
  rw [List.filter_append, List.length_append]
  by_cases h : e = .drainRecv ∨ e = .drainCtxDone
  · simp [List.filter, h]
  · simp [List.filter, h]

theorem shutdownReturns_append (evs : List Event) (e : Event) :
    shutdownReturns (evs ++ [e]) = shutdownReturns evs ++ (match e with
      | .shutdownReturn r => [r]
      | _ => []) := by
  unfold shutdownReturns
  rw [List.filterMap_append]
  cases e <;> rfl

theorem drainInv_frame {evs : List Event} {s s1 : State} {e : Event}
    (inv : DrainInv evs s) (hd : s1.drain = s.drain) (hc : s1.shutdownCalls = s.shutdownCalls)
    (h1 : drainWakes (evs ++ [e]) = drainWakes evs)
    (h2 : shutdownReturns (evs ++ [e]) = shutdownReturns evs) : DrainInv (evs ++ [e]) s1 := by
  unfold DrainInv at inv ⊢
  rw [hd, hc, h1, h2]
  exact inv

theorem drainInv_step {evs : List Event} {s s1 : State} {e : Event}
    (inv : DrainInv evs s) (h : step s e = some s1) : DrainInv (evs ++ [e]) s1 := by
  cases e with
  | shutdownRequest =>
    obtain ⟨_, rfl⟩ := step_shutdownRequest h
    exact drainInv_frame inv rfl rfl (by simp [drainWakes_append]) (by simp [shutdownReturns_append])
  | serveReturn r =>
    obtain ⟨_, _, _, rfl⟩ := step_serveReturn h
    exact drainInv_frame inv rfl rfl (by simp [drainWakes_append]) (by simp [shutdownReturns_append])
  | drainRecv =>
    obtain ⟨_, hd, n, _, rfl⟩ := step_drainRecv h
    unfold DrainInv at inv ⊢
    rw [hd] at inv
    obtain ⟨i1, i2, i3⟩ := inv
    simp [drainWakes_append, shutdownReturns_append, i1, i2, i3]
  | drainCtxDone =>
    obtain ⟨_, hd, _, rfl⟩ := step_drainCtxDone h
    unfold DrainInv at inv ⊢
    rw [hd] at inv
    obtain ⟨i1, i2, i3⟩ := inv
    simp [drainWakes_append, shutdownReturns_append, i1, i2, i3]
  | shutdownReturn r =>
    obtain ⟨_, hd, rfl⟩ := step_shutdownReturn h
    unfold DrainInv at inv ⊢
    rw [hd] at inv
    obtain ⟨i1, i2, i3⟩ := inv
    simp [drainWakes_append, shutdownReturns_append, i1, i2, i3]
  | osSignal sig =>
    obtain ⟨_, _, hq⟩ := step_osSignal h
    rcases hq with ⟨_, rfl⟩ | ⟨_, rfl⟩ <;>
      exact drainInv_frame inv rfl rfl (by simp [drainWakes_append]) (by simp [shutdownReturns_append])
  | signalCtxDone =>
    obtain ⟨_, _, _, rfl⟩ := step_signalCtxDone h
    exact drainInv_frame inv rfl rfl (by simp [drainWakes_append]) (by simp [shutdownReturns_append])
  | signalRecv =>
    obtain ⟨_, _, sig, _, rfl⟩ := step_signalRecv h
    exact drainInv_frame inv rfl rfl (by simp [drainWakes_append]) (by simp [shutdownReturns_append])
  | wait =>
    obtain ⟨_, _, rfl⟩ := step_wait h
    exact drainInv_frame inv rfl rfl (by simp [drainWakes_append]) (by simp [shutdownReturns_append])

theorem drainInv_run (evs : List Event) (s : State) (h : run State.init evs = some s) :
    DrainInv evs s :=
  run_induction (P := DrainInv) (by simp [DrainInv, State.init, drainWakes, shutdownReturns])
    (fun _ _ _ _ _ inv hs => drainInv_step inv hs) evs s h

/-! ## The signal task and the schedule -/

theorem signalInv_frame {evs : List Event} {s s1 : State} {e : Event}
    (inv : SignalInv evs s) (hd : s1.signal = s.signal) (hq : s1.quit = s.quit)
    (h1 : e ≠ .signalCtxDone) (h2 : e ≠ .signalRecv) : SignalInv (evs ++ [e]) s1 := by
  unfold SignalInv at inv ⊢
  rw [hd, hq]
  refine ⟨inv.1, ?_⟩
  have i2 := inv.2
  cases hs : s.signal with
  | waiting =>
    rw [hs] at i2
    simpa [List.mem_append, Ne.symm h1, Ne.symm h2] using i2
  | returned r =>
    rw [hs] at i2
    simpa [List.mem_append, Ne.symm h1, Ne.symm h2] using i2

theorem signalInv_step {evs : List Event} {s s1 : State} {e : Event}
    (inv : SignalInv evs s) (h : step s e = some s1) : SignalInv (evs ++ [e]) s1 := by
  cases e with
  | shutdownRequest =>
    obtain ⟨_, rfl⟩ := step_shutdownRequest h
    exact signalInv_frame inv rfl rfl (by simp) (by simp)
  | serveReturn r =>
    obtain ⟨_, _, _, rfl⟩ := step_serveReturn h
    exact signalInv_frame inv rfl rfl (by simp) (by simp)
  | drainRecv =>
    obtain ⟨_, _, n, _, rfl⟩ := step_drainRecv h
    exact signalInv_frame inv rfl rfl (by simp) (by simp)
  | drainCtxDone =>
    obtain ⟨_, _, _, rfl⟩ := step_drainCtxDone h
    exact signalInv_frame inv rfl rfl (by simp) (by simp)
  | shutdownReturn r =>
    obtain ⟨_, _, rfl⟩ := step_shutdownReturn h
    exact signalInv_frame inv rfl rfl (by simp) (by simp)
  | osSignal sig =>
    obtain ⟨_, hsig, hq⟩ := step_osSignal h
    rcases hq with ⟨_, rfl⟩ | ⟨_, rfl⟩
    · have i := @signalInv_frame evs s s (.osSignal sig) inv rfl rfl (by simp) (by simp)
      refine ⟨?_, i.2⟩
      intro sig1 h1
      simp only [Option.some.injEq] at h1
      subst h1
      exact hsig
    · exact signalInv_frame inv rfl rfl (by simp) (by simp)
  | signalCtxDone =>
    obtain ⟨_, hd, _, rfl⟩ := step_signalCtxDone h
    unfold SignalInv at inv ⊢
    rw [hd] at inv
    refine ⟨inv.1, ?_⟩
    simp [List.mem_append, inv.2.2]
  | signalRecv =>
    obtain ⟨_, hd, sig, hq, rfl⟩ := step_signalRecv h
    unfold SignalInv at inv ⊢
    rw [hd] at inv
    refine ⟨by simp, ?_⟩
    simp only [List.mem_append, List.mem_singleton, or_true, true_and, reduceCtorEq, or_false]
    exact Or.inr ⟨inv.2.1, sig, inv.1 sig hq, rfl⟩
  | wait =>
    obtain ⟨_, _, rfl⟩ := step_wait h
    exact signalInv_frame inv rfl rfl (by simp) (by simp)

theorem signalInv_run (evs : List Event) (s : State) (h : run State.init evs = some s) :
    SignalInv evs s :=
  run_induction (P := SignalInv) (by simp [SignalInv, State.init])
    (fun _ _ _ _ _ inv hs => signalInv_step inv hs) evs s h

/-! ## The two triggers -/

theorem noSignal_of_append {evs : List Event} {e : Event}
    (h : noSignal (evs ++ [e]) = true) : noSignal evs = true ∧ e.isSignal = false := by
  simpa [noSignal, List.all_append] using h

theorem noSignalInv_step {evs : List Event} {s s1 : State} {e : Event}
    (inv : NoSignalInv evs s) (h : step s e = some s1) : NoSignalInv (evs ++ [e]) s1 := by
  intro hn
  obtain ⟨iq, ir⟩ := inv (noSignal_of_append hn).1
  cases e with
  | shutdownRequest =>
    obtain ⟨_, rfl⟩ := step_shutdownRequest h
    simpa [List.mem_append] using And.intro iq ir
  | serveReturn r =>
    obtain ⟨_, _, _, rfl⟩ := step_serveReturn h
    simpa [List.mem_append] using And.intro iq ir
  | drainRecv =>
    obtain ⟨_, _, n, _, rfl⟩ := step_drainRecv h
    simpa [List.mem_append] using And.intro iq ir
  | drainCtxDone =>
    obtain ⟨_, _, _, rfl⟩ := step_drainCtxDone h
    simpa [List.mem_append] using And.intro iq ir
  | shutdownReturn r =>
    obtain ⟨_, _, rfl⟩ := step_shutdownReturn h
    simpa [List.mem_append] using And.intro iq ir
  | osSignal sig =>
    exact absurd (noSignal_of_append hn).2 (by simp [Event.isSignal])
  | signalCtxDone =>
    obtain ⟨_, _, _, rfl⟩ := step_signalCtxDone h
    simpa [List.mem_append] using And.intro iq ir
  | signalRecv =>
    obtain ⟨_, _, sig, hq, rfl⟩ := step_signalRecv h
    rw [iq] at hq
    exact absurd hq (by simp)
  | wait =>
    obtain ⟨_, _, rfl⟩ := step_wait h
    simpa [List.mem_append] using And.intro iq ir

theorem noSignalInv_run (evs : List Event) (s : State) (h : run State.init evs = some s) :
    NoSignalInv evs s :=
  run_induction (P := NoSignalInv) (by intro _; simp [State.init])
    (fun _ _ _ _ _ inv hs => noSignalInv_step inv hs) evs s h

theorem noStopRequest_of_append {evs : List Event} {e : Event}
    (h : noStopRequest (evs ++ [e]) = true) :
    noStopRequest evs = true ∧ e.isStopTrigger = false := by
  simpa [noStopRequest, List.all_append] using h

theorem quietInv_step {evs : List Event} {s s1 : State} {e : Event}
    (hrun : run State.init evs = some s)
    (inv : QuietInv evs s) (h : step s e = some s1) : QuietInv (evs ++ [e]) s1 := by
  intro hn
  obtain ⟨i1, i2, i3⟩ := inv (noStopRequest_of_append hn).1
  have hlast := (noStopRequest_of_append hn).2
  cases e with
  | shutdownRequest => exact absurd hlast (by simp [Event.isStopTrigger])
  | serveReturn r =>
    obtain ⟨_, _, hg, rfl⟩ := step_serveReturn h
    refine ⟨i1, by simpa [List.mem_append] using i2, ?_⟩
    intro hs
    have hd := drainInv_run evs s hrun
    unfold DrainInv at hd
    rw [(i3 hs).1] at hd
    exact absurd hd.2.1 (hg (by simpa [Event.isStopTrigger] using hlast))
  | drainRecv =>
    obtain ⟨_, _, n, hs, rfl⟩ := step_drainRecv h
    rw [i1] at hs
    exact absurd hs (by simp)
  | drainCtxDone =>
    obtain ⟨_, _, hc, rfl⟩ := step_drainCtxDone h
    refine ⟨i1, by simpa [List.mem_append] using i2, ?_⟩
    intro hs
    rw [(i3 hs).2.2] at hc
    exact absurd hc (by simp)
  | shutdownReturn r =>
    obtain ⟨_, hd, rfl⟩ := step_shutdownReturn h
    refine ⟨i1, by simpa [List.mem_append] using i2, ?_⟩
    intro hs
    rw [(i3 hs).1] at hd
    exact absurd hd (by simp)
  | osSignal sig =>
    obtain ⟨_, _, hq⟩ := step_osSignal h
    rcases hq with ⟨_, rfl⟩ | ⟨_, rfl⟩
    · exact ⟨i1, by simpa [List.mem_append] using i2, i3⟩
    · exact ⟨i1, by simpa [List.mem_append] using i2, i3⟩
  | signalCtxDone =>
    obtain ⟨_, hs, hc, rfl⟩ := step_signalCtxDone h
    rw [(i3 hs).2.2] at hc
    exact absurd hc (by simp)
  | signalRecv =>
    obtain ⟨_, _, sig, _, rfl⟩ := step_signalRecv h
    refine ⟨i1, by simpa [List.mem_append] using i2, ?_⟩
    intro hs
    exact absurd hs (by simp)
  | wait =>
    obtain ⟨_, hz, rfl⟩ := step_wait h
    refine ⟨i1, by simpa [List.mem_append] using i2, ?_⟩
    intro hs
    have hp := (groupInv_run evs s hrun).wg_pending
    rw [hz] at hp
    have hs0 : s.signal = .waiting := hs
    simp [State.pending, hs0] at hp

theorem quietInv_run (evs : List Event) (s : State) (h : run State.init evs = some s) :
    QuietInv evs s :=
  run_induction (P := QuietInv) (by intro _; simp [State.init, Group.WithContext3])
    (fun _ _ _ _ hr inv hs => quietInv_step hr inv hs) evs s h

/-! ## Consequences of the invariants -/

theorem firstNonNil_log_eq_none {s : State} {evs : List Event} (inv : GroupInv evs s) :
    firstNonNil (s.log.map Prod.snd) = none ↔ ∀ t r, s.outcome t = some r → r = none := by
  rw [firstNonNil_eq_none]
  constructor
  · intro h t r ho
    exact h r (List.mem_map.mpr ⟨(t, r), (inv.log_mem t r).mpr ho, rfl⟩)
  · intro h r hr
    obtain ⟨⟨t, r1⟩, hm, rfl⟩ := List.mem_map.mp hr
    exact h t r1 ((inv.log_mem t r1).mp hm)

theorem all_returned_of_pending {s : State} (h : s.pending = 0) :
    ∀ t, ∃ o, s.outcome t = some o := by
  unfold State.pending at h
  intro t
  cases t with
  | server =>
    cases hs : s.server with
    | running => simp [hs] at h
    | returned r => exact ⟨r, by simp [State.outcome, hs]⟩
  | drain =>
    cases hd : s.drain with
    | waiting => simp [hd] at h
    | shuttingDown => simp [hd] at h
    | returned r => exact ⟨r, by simp [State.outcome, hd]⟩
  | signal =>
    cases hs : s.signal with
    | waiting => simp [hs] at h
    | returned r => exact ⟨r, by simp [State.outcome, hs]⟩

theorem signal_outcome {s : State} {r : Option GoError} (h : s.outcome .signal = some r) :
    s.signal = .returned r := by
  unfold State.outcome at h
  cases hs : s.signal with
  | waiting => simp [hs] at h
  | returned r1 =>
    simp only [hs, Option.some.injEq] at h
    rw [h]

theorem drain_outcome {s : State} {r : Option GoError} (h : s.outcome .drain = some r) :
    s.drain = .returned r := by
  unfold State.outcome at h
  cases hs : s.drain with
  | waiting => simp [hs] at h
  | shuttingDown => simp [hs] at h
  | returned r1 =>
    simp only [hs, Option.some.injEq] at h
    rw [h]

/-- Every outcome of g3 is a non-nil error: the cancellation error or a signal error. -/
theorem signal_outcome_cases {evs : List Event} {s : State} {r : Option GoError}
    (h : run State.init evs = some s) (hr : s.outcome .signal = some r) :
    (Event.signalCtxDone ∈ evs ∧ Event.signalRecv ∉ evs ∧ r = some .Canceled) ∨
    (Event.signalRecv ∈ evs ∧ Event.signalCtxDone ∉ evs ∧
      ∃ sig, (sig = SIGINT ∨ sig = SIGTERM) ∧ r = some (Errorf_get_os_exit sig)) := by
  have inv := (signalInv_run evs s h).2
  rw [signal_outcome hr] at inv
  exact inv

/-- A task that has returned a non-nil error has cancelled the shared context, or found
it cancelled. -/
theorem ctx_done_of_error {evs : List Event} {s : State} {t : Task} {e : GoError}
    (h : run State.init evs = some s) (ho : s.outcome t = some (some e)) :
    s.group.ctx.done = true := by
  have inv := groupInv_run evs s h
  rw [inv.done_iff, inv.err_first]
  right
  intro hf
  have := ((firstNonNil_log_eq_none inv).mp hf) t (some e) ho
  simp at this

/-! ## The claims -/

/-- C1 (counterexample): after a request to `/shutdown` the drain task receives it, shuts
the server down and returns nil, and the shared context is still not cancelled. -/
theorem C1_drain_nil_return_leaves_ctx_open :
    run State.init drainFirstRun = some (State.after drainFirstRun) ∧
      (State.after drainFirstRun).outcome .drain = some none ∧
      (State.after drainFirstRun).group.ctx.done = false :=
  ⟨rfl, rfl, rfl⟩

/-- C1 (amended): after every schedule the shared context is cancelled exactly when some
task has returned a non-nil error or `group.Wait` has returned; a task that returns nil
does not cancel it. -/
theorem C1_ctx_cancelled_iff_error_or_wait (evs : List Event) (s : State)
    (h : run State.init evs = some s) :
    s.group.ctx.done = true ↔
      (s.waitResult ≠ none ∨ ∃ t e, s.outcome t = some (some e)) := by
  have inv := groupInv_run evs s h
  constructor
  · intro hd
    rcases inv.done_iff.mp hd with hw | he
    · exact Or.inl hw
    · right
      by_contra hc
      apply he
      rw [inv.err_first, firstNonNil_log_eq_none inv]
      intro t r ho
      cases r with
      | none => rfl
      | some e => exact absurd ⟨t, e, ho⟩ hc
  · rintro (hw | ⟨t, e, ho⟩)
    · exact inv.done_iff.mpr (Or.inl hw)
    · exact ctx_done_of_error h ho

/-- C1 (witness): on the stop-request path the context is cancelled once the server task
has returned the closed indicator. -/
theorem C1_ctx_cancelled_iff_error_or_wait_witness :
    run State.init serverClosedRun = some (State.after serverClosedRun) ∧
      (State.after serverClosedRun).group.ctx.done = true ∧
      ((State.after serverClosedRun).group.ctx.done = true ↔
        ((State.after serverClosedRun).waitResult ≠ none ∨
          ∃ t e, (State.after serverClosedRun).outcome t = some (some e))) :=
  ⟨rfl, rfl, C1_ctx_cancelled_iff_error_or_wait serverClosedRun _ rfl⟩

/-- C2 (counterexample): on the stop-request path `ListenAndServe` returns the closed
indicator and the outcome of the server task is that error, not nil. -/
theorem C2_closed_indicator_is_returned :
    run State.init serverClosedRun = some (State.after serverClosedRun) ∧
      (State.after serverClosedRun).outcome .server = some (some .ErrServerClosed) ∧
      (State.after serverClosedRun).outcome .server ≠ some none :=
  ⟨rfl, rfl, by decide⟩

/-- C2 (amended): the outcome of the server task is the value `ListenAndServe` returned,
for every value, the closed indicator included. -/
theorem C2_server_outcome_is_serve_result (evs : List Event) (s : State)
    (r : Option GoError) (h : run State.init evs = some s)
    (hr : Event.serveReturn r ∈ evs) : s.outcome .server = some r := by
  have hs := (serverInv_run evs s h r).mp hr
  simp [State.outcome, hs]

/-- C2 (witness): on the stop-request path of `stopRequestRun` the closed indicator is
the outcome of the server task. -/
theorem C2_server_outcome_is_serve_result_witness :
    run State.init stopRequestRun = some (State.after stopRequestRun) ∧
      Event.serveReturn (some .ErrServerClosed) ∈ stopRequestRun ∧
      (State.after stopRequestRun).outcome .server = some (some .ErrServerClosed) :=
  ⟨rfl, by decide,
    C2_server_outcome_is_serve_result stopRequestRun _ _ rfl (by decide)⟩

/-- C3: when `group.Wait` has returned `r`, the three tasks have returned, each is in the
history once with its outcome, the history is in the order in which the tasks returned in
the schedule, `r` is the first non-nil outcome of the history, and `r` is nil exactly
when all three outcomes are nil. -/
theorem C3_wait_returns_first_error (evs : List Event) (s : State) (r : Option GoError)
    (h : run State.init evs = some s) (hw : s.waitResult = some r) :
    (∀ t, ∃ o, s.outcome t = some o ∧ (t, o) ∈ s.log) ∧
    s.log.length = 3 ∧
    s.log.map Prod.fst = returnOrder evs ∧
    r = firstNonNil (s.log.map Prod.snd) ∧
    (r = none ↔ ∀ t, s.outcome t = some none) := by
  have inv := groupInv_run evs s h
  obtain ⟨hr, hp⟩ := inv.wait_val r hw
  have hall := all_returned_of_pending hp
  refine ⟨?_, ?_, inv.log_order, ?_, ?_⟩
  · intro t
    obtain ⟨o, ho⟩ := hall t
    exact ⟨o, ho, (inv.log_mem t o).mpr ho⟩
  · have := inv.log_pending
    omega
  · rw [hr, inv.err_first]
  · rw [hr, inv.err_first, firstNonNil_log_eq_none inv]
    constructor
    · intro hn t
      obtain ⟨o, ho⟩ := hall t
      rw [ho, hn t o ho]
    · intro hn t o ho
      rw [hn t] at ho
      simpa using ho.symm

/-- C3 (witness): on the signal path the signal task returns first, then the server task
with the closed indicator, then the drain task with nil; `Wait` returns the signal
error. -/
theorem C3_wait_returns_first_error_witness :
    run State.init signalRun = some (State.after signalRun) ∧
      (State.after signalRun).waitResult =
        some (some (.fundamental "get os exit: interrupt")) ∧
      (State.after signalRun).log.map Prod.fst = [.signal, .server, .drain] ∧
      some (GoError.fundamental "get os exit: interrupt") =
        firstNonNil ((State.after signalRun).log.map Prod.snd) :=
  ⟨rfl, rfl, rfl, (C3_wait_returns_first_error signalRun _ _ rfl rfl).2.2.2.1⟩

/-- C4 (counterexample): `ListenAndServe` fails to bind, the server task returns that
error and the context is cancelled; the signal task wakes on the done context and returns
`context.Canceled`, not the error of the server task. -/
theorem C4_signal_returns_canceled_not_cause :
    run State.init bindFailureRun = some (State.after bindFailureRun) ∧
      (State.after bindFailureRun).outcome .server =
        some (some (.other "listen tcp :8889: bind: address already in use")) ∧
      (State.after bindFailureRun).outcome .signal = some (some .Canceled) ∧
      (State.after bindFailureRun).outcome .signal ≠
        (State.after bindFailureRun).outcome .server :=
  ⟨rfl, rfl, rfl, by decide⟩

/-- C4 (amended): when the signal task wakes because the shared context is done, its
outcome is the value of `ctx.Err()`, which is `context.Canceled` whatever error of a
sibling cancelled the context. -/
theorem C4_signal_ctx_outcome_is_canceled (evs : List Event) (s : State)
    (h : run State.init evs = some s) (hc : Event.signalCtxDone ∈ evs) :
    s.outcome .signal = some (some .Canceled) ∧ s.outcome .signal = some s.group.ctx.Err := by
  have inv := (signalInv_run evs s h).2
  have ho : s.outcome .signal = some (some .Canceled) := by
    cases hs : s.signal with
    | waiting =>
      rw [hs] at inv
      exact absurd hc inv.1
    | returned r =>
      rw [hs] at inv
      rcases inv with ⟨_, _, hr⟩ | ⟨_, hn, _⟩
      · simp [State.outcome, hs, hr]
      · exact absurd hc hn
  refine ⟨ho, ?_⟩
  have hd : s.group.ctx.done = true := ctx_done_of_error h ho
  rw [ho, Context.Err, hd]
  rfl

/-- C4 (witness): on the stop-request path the signal task wakes on the done context and
returns `context.Canceled`. -/
theorem C4_signal_ctx_outcome_is_canceled_witness :
    run State.init stopRequestRun = some (State.after stopRequestRun) ∧
      Event.signalCtxDone ∈ stopRequestRun ∧
      (State.after stopRequestRun).outcome .signal = some (some .Canceled) :=
  ⟨rfl, by decide,
    (C4_signal_ctx_outcome_is_canceled stopRequestRun _ rfl (by decide)).1⟩

/-- C5: after every schedule the drain task has called `server.Shutdown` once for each
time its `select` fired, which is at most once, whichever case fired; each call has a
context built from `context.Background()` with a timeout of 3 seconds, not a descendant
of the shared context; and when the drain task has returned `r`, its `select` fired
exactly once, `Shutdown` returned exactly once, and `r` is the value it returned. -/
theorem C5_drain_shuts_down_once (evs : List Event) (s : State)
    (h : run State.init evs = some s) :
    s.shutdownCalls = List.replicate (drainWakes evs) (.WithTimeout .Background (3 * Second)) ∧
    drainWakes evs ≤ 1 ∧
    (∀ c ∈ s.shutdownCalls, c.timeout = some 3000000000 ∧ c.derivesFromGroup = false) ∧
    (∀ r, s.outcome .drain = some r → drainWakes evs = 1 ∧ shutdownReturns evs = [r]) := by
  have inv := drainInv_run evs s h
  unfold DrainInv at inv
  have hcalls : s.shutdownCalls = List.replicate (drainWakes evs) timeoutCtx ∧
      drainWakes evs ≤ 1 := by
    cases hd : s.drain with
    | waiting =>
      rw [hd] at inv
      simp [inv.1, inv.2.1]
    | shuttingDown =>
      rw [hd] at inv
      simp [inv.1, inv.2.1]
    | returned r =>
      rw [hd] at inv
      simp [inv.1, inv.2.1]
  refine ⟨hcalls.1, hcalls.2, ?_, ?_⟩
  · intro c hc
    rw [hcalls.1] at hc
    obtain rfl := (List.mem_replicate.mp hc).2
    exact ⟨rfl, rfl⟩
  · intro r hr
    rw [drain_outcome hr] at inv
    exact ⟨inv.1, inv.2.2⟩

/-- C5 (witness): on the signal path the drain task wakes on the done context, calls
`Shutdown` once and returns the nil that `Shutdown` returned. -/
theorem C5_drain_shuts_down_once_witness :
    run State.init signalRun = some (State.after signalRun) ∧
      (State.after signalRun).outcome .drain = some none ∧
      (State.after signalRun).shutdownCalls = [.WithTimeout .Background (3 * Second)] ∧
      drainWakes signalRun = 1 ∧
      shutdownReturns signalRun = [none] :=
  have w := C5_drain_shuts_down_once signalRun (State.after signalRun) rfl
  ⟨rfl, rfl, rfl, (w.2.2.2 none rfl).1, (w.2.2.2 none rfl).2⟩

/-- C6: in every completed run the drain task has called `server.Shutdown` exactly once
and the signal task has returned a non-nil error.  When no signal is delivered (the
stop-request path) that error is the cancellation error `ctx.Err()` of the shared
context; when no request to `/shutdown` is made and the server does not stop by itself
(the signal path) it is the signal error of the task. -/
theorem C6_both_paths_shut_down (evs : List Event) (s : State)
    (h : run State.init evs = some s) (hc : s.waitResult ≠ none) :
    s.shutdownCalls = [timeoutCtx] ∧
    shutdownReturns evs ≠ [] ∧
    (∃ e, s.outcome .signal = some (some e)) ∧
    (noSignal evs = true → s.outcome .signal = some (some .Canceled)) ∧
    (noStopRequest evs = true → ∃ sig, (sig = SIGINT ∨ sig = SIGTERM) ∧
      s.outcome .signal = some (some (Errorf_get_os_exit sig))) := by
  have inv := groupInv_run evs s h
  obtain ⟨r, hw⟩ := Option.ne_none_iff_exists'.mp hc
  have hall := all_returned_of_pending (inv.wait_val r hw).2
  obtain ⟨rd, hrd⟩ := hall .drain
  obtain ⟨rs, hrs⟩ := hall .signal
  have hd := drainInv_run evs s h
  unfold DrainInv at hd
  rw [drain_outcome hrd] at hd
  have hcases := signal_outcome_cases h hrs
  refine ⟨hd.2.1, by simp [hd.2.2], ?_, ?_, ?_⟩
  · rcases hcases with ⟨_, _, rfl⟩ | ⟨_, _, sig, _, rfl⟩
    · exact ⟨_, hrs⟩
    · exact ⟨_, hrs⟩
  · intro hn
    rcases hcases with ⟨_, _, rfl⟩ | ⟨hm, _, _⟩
    · exact hrs
    · exact absurd hm ((noSignalInv_run evs s h) hn).2
  · intro hn
    rcases hcases with ⟨hm, _, _⟩ | ⟨_, _, sig, hsig, rfl⟩
    · exact absurd hm ((quietInv_run evs s h) hn).2.1
    · exact ⟨sig, hsig, hrs⟩

/-- C6 (witness): the stop-request path of `stopRequestRun` completes, without a signal,
with one call of `Shutdown` and the cancellation error as outcome of the signal task. -/
theorem C6_both_paths_shut_down_witness :
    run State.init stopRequestRun = some (State.after stopRequestRun) ∧
      (State.after stopRequestRun).waitResult ≠ none ∧
      noSignal stopRequestRun = true ∧
      (State.after stopRequestRun).shutdownCalls = [timeoutCtx] ∧
      (State.after stopRequestRun).outcome .signal = some (some .Canceled) :=
  have hn : noSignal stopRequestRun = true := by decide
  have w := C6_both_paths_shut_down stopRequestRun (State.after stopRequestRun) rfl
    (by decide)
  ⟨rfl, by decide, hn, w.1, w.2.2.2.1 hn⟩

/-- The signal path of `signalRun` completes, without a stop request and without a
failure of the server by itself, with one call of `Shutdown` and the signal error of
SIGINT as outcome of the signal task. -/
theorem signalRun_completes :
    run State.init signalRun = some (State.after signalRun) ∧
      (State.after signalRun).waitResult ≠ none ∧
      noStopRequest signalRun = true ∧
      (State.after signalRun).shutdownCalls = [timeoutCtx] ∧
      (State.after signalRun).outcome .signal = some (some (Errorf_get_os_exit SIGINT)) := by
  exact ⟨rfl, by decide, by decide, rfl, rfl⟩

/-- C7: for every call of `Scan`, `queryRowDemo` returns a non-nil error exactly when the
call returns an error other than `sql.ErrNoRows`; that error is `errors.Wrap` of the scan
error with the message "query err": a `withStack` holding a `withMessage` whose cause is
the scan error, with the text "query err: " followed by the text of the scan error, and
with the same `errors.Cause` as the scan error (the scan error itself when that has no
`Cause()` of its own); a call that returns nil and a call that returns `sql.ErrNoRows`
both give nil. -/
theorem C7_queryRowDemo_error_iff (Scan : ScanCall) :
    (queryRowDemo Scan ≠ none ↔ ∃ e, (Scan user.zero).2 = some e ∧ e ≠ .ErrNoRows) ∧
    (∀ e, (Scan user.zero).2 = some e → e ≠ .ErrNoRows →
      ∃ w, queryRowDemo Scan = some w ∧ some w = Wrap (some e) "query err" ∧
        w = .withStack (.withMessage e "query err") ∧
        w.directCause = some (.withMessage e "query err") ∧
        (GoError.withMessage e "query err").directCause = some e ∧
        w.Cause = e.Cause ∧ (e.directCause = none → w.Cause = e) ∧
        w.Error = "query err: " ++ e.Error) ∧
    ((Scan user.zero).2 = none → queryRowDemo Scan = none) ∧
    ((Scan user.zero).2 = some .ErrNoRows → queryRowDemo Scan = none) := by
  have hq : queryRowDemo Scan = match (Scan user.zero).2 with
      | some e => if e = .ErrNoRows then none else Wrap (some e) "query err"
      | none => none := rfl
  have hc : ∀ e : GoError, e.directCause = none → e.Cause = e := by
    intro e he
    cases e <;> simp [GoError.directCause] at he <;> rfl
  cases hs : (Scan user.zero).2 with
  | none => simp [hq, hs]
  | some e0 =>
    by_cases h : e0 = .ErrNoRows
    · subst h
      simp [hq, hs]
    · have hw : queryRowDemo Scan = some (.withStack (.withMessage e0 "query err")) := by
        rw [hq, hs]
        simp [h, Wrap]
      refine ⟨?_, ?_, ?_, ?_⟩
      · rw [hw]
        simp [h]
      · intro e he _
        simp only [Option.some.injEq] at he
        subst he
        exact ⟨_, hw, rfl, rfl, rfl, rfl, rfl, hc e0, rfl⟩
      · intro hn
        simp at hn
      · intro hn
        simp only [Option.some.injEq] at hn
        exact absurd hn h

/-- C8 (counterexample): a lookup that finds and stores the row (2, "Tom", 18) and a
lookup that finds no row are different calls of `Scan` and give the same result, nil: the
caller cannot tell the two apart. -/
theorem C8_found_and_absent_same_result :
    (scanRow ⟨2, by decide⟩ "Tom" ⟨18, by decide⟩ user.zero).2 = none ∧
      (scanNoRows user.zero).2 = some .ErrNoRows ∧
      queryRowDemo (scanRow ⟨2, by decide⟩ "Tom" ⟨18, by decide⟩) = queryRowDemo scanNoRows ∧
      queryRowDemo (scanRow ⟨2, by decide⟩ "Tom" ⟨18, by decide⟩) = none :=
  ⟨rfl, rfl, rfl, rfl⟩

/-- C8 (amended): the result of `queryRowDemo` is an error value only, and it is decided
by the error of the call of `Scan`: a call that stores a found row and returns nil and a
call that finds no row and returns `sql.ErrNoRows` both give nil; a call that returns any
other error (a failure of the lookup, or a found row that does not convert) gives a
non-nil error, which differs from the result of the former two. -/
theorem C8_queryRowDemo_separates_failure_only (Scan : ScanCall) :
    ((Scan user.zero).2 = none → queryRowDemo Scan = none) ∧
    ((Scan user.zero).2 = some .ErrNoRows → queryRowDemo Scan = none) ∧
    (∀ e, (Scan user.zero).2 = some e → e ≠ GoError.ErrNoRows →
      queryRowDemo Scan ≠ none ∧
      queryRowDemo Scan ≠ queryRowDemo scanNoRows ∧
      ∀ id name age, queryRowDemo Scan ≠ queryRowDemo (scanRow id name age)) := by
  have hq : queryRowDemo Scan = match (Scan user.zero).2 with
      | some e => if e = .ErrNoRows then none else Wrap (some e) "query err"
      | none => none := rfl
  have h1 : queryRowDemo scanNoRows = none := rfl
  have h2 : ∀ id name age, queryRowDemo (scanRow id name age) = none := fun _ _ _ => rfl
  refine ⟨fun h => by simp [hq, h], fun h => by simp [hq, h], ?_⟩
  intro e he hne
  have h3 : queryRowDemo Scan ≠ none := by simp [hq, he, hne, Wrap]
  refine ⟨h3, by rw [h1]; exact h3, fun id name age => by rw [h2]; exact h3⟩

/-- C8 (witness): a found row whose column does not convert makes `Scan` return an error,
and the result is that error wrapped, not nil. -/
theorem C8_queryRowDemo_separates_failure_only_witness :
    (scanFailure (.other "sql: Scan error on column index 2") user.zero).2 =
        some (.other "sql: Scan error on column index 2") ∧
      queryRowDemo (scanFailure (.other "sql: Scan error on column index 2")) ≠ none ∧
      queryRowDemo (scanFailure (.other "sql: Scan error on column index 2")) ≠
        queryRowDemo scanNoRows :=
  have w := (C8_queryRowDemo_separates_failure_only
    (scanFailure (.other "sql: Scan error on column index 2"))).2.2
    (.other "sql: Scan error on column index 2") rfl (by decide)
  ⟨rfl, w.1, w.2.1⟩

/-- C9: when the `select` of the signal task receives the signal `sig` from `quit`, the
task returns a non-nil error whose text is "get os exit: " followed by the text of `sig`;
`sig` is SIGINT or SIGTERM, and the two give different texts ("get os exit: interrupt",
"get os exit: terminated").  While the shared context is not done the context case of the
`select` cannot fire. -/
theorem C9_signal_error_names_signal (evs : List Event) (s s1 : State) (sig : Signal)
    (h : run State.init evs = some s) (hq : s.quit = some sig)
    (hs : step s .signalRecv = some s1) :
    (sig = SIGINT ∨ sig = SIGTERM) ∧
    (∃ e, s1.outcome .signal = some (some e) ∧ e = Errorf_get_os_exit sig ∧
      e.Error = "get os exit: " ++ sig.String) ∧
    (Errorf_get_os_exit SIGINT).Error = "get os exit: interrupt" ∧
    (Errorf_get_os_exit SIGTERM).Error = "get os exit: terminated" ∧
    (Errorf_get_os_exit SIGINT).Error ≠ (Errorf_get_os_exit SIGTERM).Error ∧
    (s.group.ctx.done = false → step s .signalCtxDone = none) := by
  obtain ⟨_, _, sig1, hq1, rfl⟩ := step_signalRecv hs
  rw [hq] at hq1
  simp only [Option.some.injEq] at hq1
  subst hq1
  refine ⟨(signalInv_run evs s h).1 sig hq, ⟨_, rfl, rfl, rfl⟩, by decide, by decide,
    by decide, ?_⟩
  intro hd
  cases hc : step s .signalCtxDone with
  | none => rfl
  | some s2 =>
    obtain ⟨_, _, hd1, _⟩ := step_signalCtxDone hc
    rw [hd] at hd1
    exact absurd hd1 (by simp)

/-- C9 (witness): SIGTERM is delivered and the signal task receives it; its outcome is
the error with the text "get os exit: terminated". -/
theorem C9_signal_error_names_signal_witness :
    run State.init sigtermRun = some (State.after sigtermRun) ∧
      (State.after sigtermRun).quit = some SIGTERM ∧
      step (State.after sigtermRun) .signalRecv = some (State.after sigtermRecvRun) ∧
      (State.after sigtermRecvRun).outcome .signal =
        some (some (.fundamental "get os exit: terminated")) ∧
      (Errorf_get_os_exit SIGINT).Error ≠ (Errorf_get_os_exit SIGTERM).Error :=
  ⟨rfl, rfl, rfl, rfl,
    (C9_signal_error_names_signal sigtermRun (State.after sigtermRun)
      (State.after sigtermRecvRun) SIGTERM rfl rfl rfl).2.2.2.2.1⟩

/-- C10: the signal task never returns nil (each of its two exits returns a non-nil
error), and in every completed run the value returned by `group.Wait` is non-nil. -/
theorem C10_signal_and_wait_never_nil (evs : List Event) (s : State)
    (h : run State.init evs = some s) :
    (∀ r, s.outcome .signal = some r → r ≠ none) ∧
    (∀ sig, signalTaskQuit sig ≠ none) ∧
    (∀ c : Context, c.done = true → signalTaskCtx c ≠ none) ∧
    (∀ r, s.waitResult = some r → r ≠ none) := by
  have hsig : ∀ r, s.outcome .signal = some r → r ≠ none := by
    intro r hr
    rcases signal_outcome_cases h hr with ⟨_, _, rfl⟩ | ⟨_, _, sig, _, rfl⟩ <;> simp
  refine ⟨hsig, fun sig => by simp [signalTaskQuit], ?_, ?_⟩
  · intro c hc
    simp [signalTaskCtx, Context.Err, hc]
  · intro r hw hr
    have inv := groupInv_run evs s h
    obtain ⟨he, hp⟩ := inv.wait_val r hw
    obtain ⟨rs, hrs⟩ := all_returned_of_pending hp .signal
    rw [hr] at he
    have hn := (firstNonNil_log_eq_none inv).mp (inv.err_first.symm.trans he.symm) .signal rs hrs
    exact hsig rs hrs hn

/-- C10 (witness): after the clean stop-request shutdown of `stopRequestRun` the signal
task has returned the cancellation error and `Wait` has returned the closed indicator of
the server task. -/
theorem C10_signal_and_wait_never_nil_witness :
    run State.init stopRequestRun = some (State.after stopRequestRun) ∧
      (State.after stopRequestRun).waitResult = some (some .ErrServerClosed) ∧
      (∀ r, (State.after stopRequestRun).waitResult = some r → r ≠ none) :=
  ⟨rfl, rfl,
    (C10_signal_and_wait_never_nil stopRequestRun (State.after stopRequestRun) rfl).2.2.2⟩

end GeekTime
